import Mathlib

/-!
Verification of the media ingestion pipeline of the Music-Streaming
repository (src/utils.py, src/app.py, src/models.py, src/config.py).

The Python functions are shallowly embedded as executable Lean
definitions: byte strings become `List Nat`, the three storage backends
become explicit stores inside a `World` record, exceptions become an
explicit error constructor, and SQLAlchemy track rows become a `Track`
record.  Audio handling (pydub) is external to the repository; an
`AudioSegment` is modelled as a list of frames, one entry per
millisecond, so that `len(audio)` is the duration in milliseconds and
Python slicing `audio[:n]` is `List.take n`.  An MP3 export is modelled
as the constructor `Blob.mp3 frames bitrate`: the claims under test
depend only on which bytes are stored where, never on the MP3 byte
layout, and an MP3 export is never the empty byte string (it always
carries header frames), which `Blob.truthy` records.
-/

namespace MusicStream

/-- A stored byte blob.  `raw` is an uploaded byte string, `mp3` is the
result of `audio.export(..., format="mp3", bitrate=...)` in
`process_track_upload`, carrying the encoded frames (one per
millisecond) and the bitrate. -/
inductive Blob where
  | raw (bytes : List Nat)
  | mp3 (frames : List Nat) (bitrate : String)
deriving DecidableEq

/-- Python truthiness of a blob used as `if track.mp3_file:` in
`get_file_stream_response`: an empty byte string is falsy; an MP3
export always contains at least its header bytes, hence is truthy. -/
def Blob.truthy : Blob → Bool
  | .raw bs => !bs.isEmpty
  | .mp3 _ _ => true

/-- Python truthiness of an optional blob column (`None` and `b""` are
falsy). -/
def optBlobTruthy : Option Blob → Bool
  | some b => b.truthy
  | none => false

/-- Python truthiness of an optional string column (`None` and `""` are
falsy). -/
def strTruthy : Option String → Bool
  | some s => !s.isEmpty
  | none => false

/-- Python `a or b` on two optional strings, as in
`track.mp3_path or track.file_path`. -/
def pyOrStr (a b : Option String) : Option String :=
  if strTruthy a then a else b

/-- Python `a or d` with a string literal default, as in
`track.mime_type or "audio/mpeg"`. -/
def pyStrOrD (a : Option String) (d : String) : String :=
  match a with
  | some s => if s.isEmpty then d else s
  | none => d

/-- The Track row of src/models.py (the columns the ingestion pipeline
and retrieval touch).  All locator columns are nullable and default to
NULL. -/
structure Track where
  owner_id : Nat := 0
  title : String := ""
  duration : Nat := 0
  mime_type : Option String := none
  original_filename : Option String := none
  file_path : Option String := none
  mp3_path : Option String := none
  preview_path : Option String := none
  original_file : Option Blob := none
  mp3_file : Option Blob := none
  preview_file : Option Blob := none
  s3_key : Option String := none
  s3_mp3_key : Option String := none
  s3_preview_key : Option String := none
deriving DecidableEq

instance : Inhabited Track := ⟨{}⟩

/-- Observable side effects of the ingestion pipeline: reading the
upload bytes (`file_storage.read()`), a local file write, an S3
`put_object`. -/
inductive Event where
  | readUploadBytes
  | fsWrite (path : String)
  | s3Put (key : String)
deriving DecidableEq

/-- External mutable state: the local filesystem (path to blob), the S3
bucket (key to blob and content type), and the chronological event
trace. -/
structure World where
  fs : List (String × Blob)
  s3 : List (String × Blob × String)
  events : List Event
deriving DecidableEq

/-- Filesystem read (`open(path).read()` / `os.path.exists`). -/
def fsGet (fs : List (String × Blob)) (p : String) : Option Blob :=
  match fs with
  | [] => none
  | (k, b) :: rest => if p == k then some b else fsGet rest p

/-- Filesystem delete (`os.remove`); removing an absent path leaves the
store unchanged, which together with the source's `os.path.exists`
guard makes deletion total. -/
def fsDel (fs : List (String × Blob)) (p : String) : List (String × Blob) :=
  fs.filter (fun kv => kv.1 != p)

/-- S3 `get_object`, returning body and content type. -/
def s3Get (s : List (String × Blob × String)) (k : String) :
    Option (Blob × String) :=
  match s with
  | [] => none
  | (k2, b, ct) :: rest => if k == k2 then some (b, ct) else s3Get rest k

/-- S3 `delete_object`; deleting a missing key is not an error. -/
def s3Del (s : List (String × Blob × String)) (k : String) :
    List (String × Blob × String) :=
  s.filter (fun kv => kv.1 != k)

/-- Record a read event (`file_storage.read()`). -/
def World.logRead (w : World) : World :=
  { w with events := w.events ++ [Event.readUploadBytes] }

/-- Local file write (`open(path, "wb").write(...)`). -/
def World.fsPut (w : World) (p : String) (b : Blob) : World :=
  { w with fs := (p, b) :: w.fs, events := w.events ++ [Event.fsWrite p] }

/-- S3 `put_object` with body and content type. -/
def World.s3PutObj (w : World) (k : String) (b : Blob) (ct : String) : World :=
  { w with s3 := (k, b, ct) :: w.s3, events := w.events ++ [Event.s3Put k] }

/-- The configuration values of src/config.py that the pipeline reads.
Defaults are the source's defaults (`STORAGE_MODE` defaults to
"local", `PREVIEW_DURATION` to 30 seconds, `TRANSCODE_BITRATE` to
"192k", `ALLOWED_EXTENSIONS` to the six audio extensions). -/
structure Config where
  storage_mode : String := "local"
  upload_folder : String := "uploads"
  allowed_extensions : List String := ["mp3", "wav", "flac", "m4a", "ogg", "aac"]
  preview_duration : Nat := 30
  transcode_bitrate : String := "192k"
  s3_bucket : String := "bucket"
deriving DecidableEq

/-- The characters after the last '.' of a list of characters, `none`
when there is no '.'.  This is Python's `filename.rsplit(".", 1)[1]`
guarded by `"." in filename`. -/
def afterLastDot : List Char → Option (List Char)
  | [] => none
  | c :: rest =>
    match afterLastDot rest with
    | some s => some s
    | none => if c = '.' then some rest else none

/-- Python `str.lower()` on the ASCII extensions under test. -/
def pyLower (cs : List Char) : List Char := cs.map Char.toLower

/-- Embeds `allowed_file` (src/utils.py lines 16-17):
`"." in filename and filename.rsplit(".", 1)[1].lower() in allowed`. -/
def allowed_file (filename : String) (allowed : List String) : Bool :=
  match afterLastDot filename.toList with
  | none => false
  | some ext => allowed.contains (String.mk (pyLower ext))

/-- The lower-cased extension `filename.rsplit(".", 1)[1].lower()`
computed at src/utils.py line 59; callers guarantee a dot is present
(the upload route has already checked `allowed_file`). -/
def extOf (filename : String) : String :=
  String.mk (pyLower ((afterLastDot filename.toList).getD []))

/-- Models `uuid.uuid4().hex` as a deterministic fresh-name supply
seeded by a counter. -/
def uuidHex (n : Nat) : String := "u" ++ toString n

/-- Embeds `os.path.basename`, used for the local-mode download name. -/
def basename (p : String) : String :=
  String.mk ((p.toList.reverse.takeWhile (fun c => c ≠ '/')).reverse)

/-- The preview segment `audio[:preview_len]` of src/utils.py line 72,
where `preview_len = PREVIEW_DURATION * 1000` milliseconds: pydub
slicing takes the leading `preview_len` milliseconds and silently
truncates to the whole track when it is shorter. -/
def previewSegment (audio : List Nat) (preview_duration : Nat) : List Nat :=
  audio.take (preview_duration * 1000)

/-- Result of `process_track_upload`: normal return, or a raised
exception (`err`) carrying the in-memory track object, the world as
mutated so far, and the exception message. -/
inductive IngestResult where
  | ok (t : Track) (w : World)
  | err (t : Track) (w : World) (e : String)
deriving DecidableEq

def IngestResult.okTrack : IngestResult → Track
  | .ok t _ => t
  | .err t _ _ => t

def IngestResult.okWorld : IngestResult → World
  | .ok _ w => w
  | .err _ w _ => w

def IngestResult.isOk : IngestResult → Bool
  | .ok _ _ => true
  | .err _ _ _ => false

def IngestResult.errOf : IngestResult → Option String
  | .ok _ _ => none
  | .err _ _ e => some e

/-- Embeds `process_track_upload` (src/utils.py lines 52-115).

`orig_bytes` is `file_storage.read()`; `decoded` is the pydub decode
`AudioSegment.from_file(...)` of those bytes (`none` when decoding
raises, e.g. a zero-byte upload).  `uuid` seeds the `uuid4` supply.
Storage writes are failure-injectable: the i-th write of this call
(0-based: original, stream, preview) succeeds iff `ok i`; a failed
write raises, propagating with the track and world as mutated so far.
The postgres branch only assigns in-memory columns, which cannot fail.
Locator columns are assigned exactly where the source assigns them:
after all three writes of the branch have succeeded. -/
def process_track_upload (track : Track) (filename : String)
    (orig_bytes : List Nat) (decoded : Option (List Nat)) (cfg : Config)
    (w : World) (uuid : Nat) (ok : Nat → Bool) : IngestResult :=
  let ext := extOf filename
  let w := w.logRead
  match decoded with
  | none => .err track w "DecodeError"
  | some audio =>
    let track := { track with
      duration := audio.length / 1000
      original_filename := some filename }
    let mp3_blob := Blob.mp3 audio cfg.transcode_bitrate
    let preview_blob :=
      Blob.mp3 (previewSegment audio cfg.preview_duration) cfg.transcode_bitrate
    let mode := cfg.storage_mode
    if mode == "postgres" then
      let track := { track with
        original_file := some (Blob.raw orig_bytes)
        mp3_file := some mp3_blob
        preview_file := some preview_blob }
      .ok { track with mime_type := some "audio/mpeg" } w
    else if mode == "s3" then
      let key_base := "tracks/" ++ toString track.owner_id ++ "/" ++ uuidHex uuid
      let k_orig := key_base ++ "/original." ++ ext
      let k_stream := key_base ++ "/stream.mp3"
      let k_preview := key_base ++ "/preview.mp3"
      if !ok 0 then .err track w "StorageError" else
      let w := w.s3PutObj k_orig (Blob.raw orig_bytes) ("audio/" ++ ext)
      if !ok 1 then .err track w "StorageError" else
      let w := w.s3PutObj k_stream mp3_blob "audio/mpeg"
      if !ok 2 then .err track w "StorageError" else
      let w := w.s3PutObj k_preview preview_blob "audio/mpeg"
      let track := { track with
        s3_key := some k_orig
        s3_mp3_key := some k_stream
        s3_preview_key := some k_preview }
      .ok { track with mime_type := some "audio/mpeg" } w
    else
      let base := cfg.upload_folder ++ "/" ++ toString track.owner_id
      let orig_path := base ++ "/" ++ uuidHex uuid ++ "_orig." ++ ext
      let mp3_path := base ++ "/" ++ uuidHex (uuid + 1) ++ "_stream.mp3"
      let preview_path := base ++ "/" ++ uuidHex (uuid + 2) ++ "_preview.mp3"
      if !ok 0 then .err track w "StorageError" else
      let w := w.fsPut orig_path (Blob.raw orig_bytes)
      if !ok 1 then .err track w "StorageError" else
      let w := w.fsPut mp3_path mp3_blob
      if !ok 2 then .err track w "StorageError" else
      let w := w.fsPut preview_path preview_blob
      let track := { track with
        file_path := some orig_path
        mp3_path := some mp3_path
        preview_path := some preview_path }
      .ok { track with mime_type := some "audio/mpeg" } w

/-- Result of `get_file_stream_response`: a served file (body, mimetype,
download name), `abort(404)`, the implicit `return None` the postgres
branch can fall through to, or an exception raised by boto3 when a
present key is missing from the bucket (the source does not catch
it). -/
inductive StreamResp where
  | file (b : Blob) (mimetype : String) (download_name : Option String)
  | notFound
  | pyNone
  | s3Raise
deriving DecidableEq

def StreamResp.body : StreamResp → Option Blob
  | .file b _ _ => some b
  | _ => none

/-- Embeds `get_file_stream_response` (src/utils.py lines 117-162).
Variant is "mp3", "preview" or anything else (original).  Python `or`
on locators and the truthiness tests on blob columns are modelled
exactly; the local branch checks `os.path.exists` before sending. -/
def get_file_stream_response (track : Track) (variant : String)
    (cfg : Config) (w : World) : StreamResp :=
  let mode := cfg.storage_mode
  if mode == "postgres" then
    if variant == "mp3" && optBlobTruthy track.mp3_file then
      .file ((track.mp3_file).getD (Blob.raw [])) "audio/mpeg"
        (some (track.title ++ ".mp3"))
    else if variant == "preview" && optBlobTruthy track.preview_file then
      .file ((track.preview_file).getD (Blob.raw [])) "audio/mpeg"
        (some (track.title ++ "_preview.mp3"))
    else if optBlobTruthy track.original_file then
      .file ((track.original_file).getD (Blob.raw []))
        (pyStrOrD track.mime_type "application/octet-stream")
        track.original_filename
    else
      .pyNone
  else if mode == "s3" then
    let key :=
      if variant == "mp3" then pyOrStr track.s3_mp3_key track.s3_key
      else if variant == "preview" then pyOrStr track.s3_preview_key track.s3_mp3_key
      else track.s3_key
    match key with
    | none => .notFound
    | some k =>
      if k.isEmpty then .notFound
      else
        match s3Get w.s3 k with
        | none => .s3Raise
        | some (b, ct) => .file b ct (some track.title)
  else
    let path :=
      if variant == "mp3" then pyOrStr track.mp3_path track.file_path
      else if variant == "preview" then pyOrStr track.preview_path track.mp3_path
      else track.file_path
    match path with
    | none => .notFound
    | some p =>
      if p.isEmpty then .notFound
      else
        match fsGet w.fs p with
        | none => .notFound
        | some b =>
          .file b (pyStrOrD track.mime_type "audio/mpeg") (some (basename p))

/-- One iteration of the local-mode cleanup loop of `storage_delete`
(src/utils.py lines 169-171): `if p and os.path.exists(p): os.remove(p)`. -/
def removeIfExists (fs : List (String × Blob)) (p : Option String) :
    List (String × Blob) :=
  match p with
  | some path => if path.isEmpty then fs else fsDel fs path
  | none => fs

/-- Embeds `storage_delete` (src/utils.py lines 164-189).  The whole
body runs inside `try/except Exception`, so the function is total and
never raises; in this model every branch is a total function.  The
local branch removes each of the three path columns that is set and
exists (`getattr(track, "avatar_filename", None)` is always `None` on
a Track and is omitted); the s3 branch deletes each non-null key; any
other mode takes the final else branch, which only nulls the three
postgres blob columns. -/
def storage_delete (track : Track) (cfg : Config) (w : World) :
    Track × World :=
  let mode := cfg.storage_mode
  if mode == "local" then
    let fs := removeIfExists (removeIfExists (removeIfExists w.fs track.file_path)
      track.mp3_path) track.preview_path
    (track, { w with fs := fs })
  else if mode == "s3" then
    let keys := ([track.s3_key, track.s3_mp3_key, track.s3_preview_key].filterMap id).filter
      (fun k => !k.isEmpty)
    (track, { w with s3 := keys.foldl (fun s k => s3Del s k) w.s3 })
  else
    ({ track with original_file := none, mp3_file := none, preview_file := none }, w)

/-- The fresh track the upload route constructs
(`Track(owner_id=current_user.id, title=title, ...)`, src/app.py line
151): every locator column is NULL. -/
def initTrack (owner : Nat) (title : String) : Track :=
  { owner_id := owner, title := title }

/-- Result of the upload route: rejected before any work (extension not
allowed), committed success, or failure after rollback and cleanup.
Every constructor carries the final world. -/
inductive UploadResult where
  | rejected (w : World)
  | success (t : Track) (w : World)
  | failed (e : String) (t : Track) (w : World)
deriving DecidableEq

def UploadResult.resTrack : UploadResult → Option Track
  | .rejected _ => none
  | .success t _ => some t
  | .failed _ t _ => some t

def UploadResult.worldOf : UploadResult → World
  | .rejected w => w
  | .success _ w => w
  | .failed _ _ w => w

def UploadResult.trackOf : UploadResult → Track
  | .rejected _ => {}
  | .success t _ => t
  | .failed _ t _ => t

def UploadResult.isFailed : UploadResult → Bool
  | .failed _ _ _ => true
  | _ => false

def UploadResult.errMsg : UploadResult → Option String
  | .failed e _ _ => some e
  | _ => none

/-- Embeds the upload route (src/app.py lines 139-166).  The extension
is validated first; on mismatch the route flashes and redirects with
no track created and the world untouched.  Otherwise a fresh Track is
added and `process_track_upload` runs; on an exception the route does
`db.session.rollback()` (the in-memory attribute values of the
expunged pending object survive) and then `storage_delete`, reporting
the original exception message.  `secure_filename` is external
(werkzeug) and modelled as the identity on the already-safe names
under test; the form-title defaulting is elided (`title` is passed
in). -/
def upload (filename : String) (orig_bytes : List Nat)
    (decoded : Option (List Nat)) (title : String) (owner : Nat)
    (cfg : Config) (w : World) (uuid : Nat) (ok : Nat → Bool) : UploadResult :=
  if !(allowed_file filename cfg.allowed_extensions) then
    .rejected w
  else
    let track := initTrack owner title
    match process_track_upload track filename orig_bytes decoded cfg w uuid ok with
    | .ok t w2 => .success t w2
    | .err t w2 e =>
      let td := storage_delete t cfg w2
      .failed e td.1 td.2

/-- The write-fault oracle under which every storage write succeeds. -/
def okAll : Nat → Bool := fun _ => true

/-- A locator-column set is consistent when its three columns are all
NULL or all non-NULL (spec section 3's all-or-nothing invariant). -/
def allSame3 (a b c : Bool) : Bool := (a == b) && (b == c)

/-- All three backend locator-column sets of a track are each all-NULL
or all-non-NULL. -/
def locatorsConsistent (t : Track) : Bool :=
  allSame3 t.file_path.isSome t.mp3_path.isSome t.preview_path.isSome &&
  allSame3 t.original_file.isSome t.mp3_file.isSome t.preview_file.isSome &&
  allSame3 t.s3_key.isSome t.s3_mp3_key.isSome t.s3_preview_key.isSome

/-- Consistency of the track carried by an upload result (vacuous for a
rejected upload, which creates no track). -/
def UploadResult.locOk (r : UploadResult) : Bool :=
  match r.resTrack with
  | none => true
  | some t => locatorsConsistent t

/-- The preview blob a track's active-backend preview locator resolves
to: the postgres column, the S3 object under `s3_preview_key`, or the
file under `preview_path`. -/
def storedPreview (t : Track) (cfg : Config) (w : World) : Option Blob :=
  if cfg.storage_mode == "postgres" then t.preview_file
  else if cfg.storage_mode == "s3" then
    t.s3_preview_key.bind (fun k => (s3Get w.s3 k).map Prod.fst)
  else
    t.preview_path.bind (fun p => fsGet w.fs p)

/-- The active backend's stream locator is absent (NULL or empty) on a
track, in the sense `get_file_stream_response` tests it. -/
def streamLocAbsent (t : Track) (cfg : Config) : Bool :=
  if cfg.storage_mode == "postgres" then !(optBlobTruthy t.mp3_file)
  else if cfg.storage_mode == "s3" then !(strTruthy t.s3_mp3_key)
  else !(strTruthy t.mp3_path)

/-- The postgres-mode configuration. -/
def cfgPg : Config := { storage_mode := "postgres" }

/-- The s3-mode configuration. -/
def cfgS3 : Config := { storage_mode := "s3" }

/-- The keep-predicate of one local-mode cleanup iteration: an entry
survives `removeIfExists fs p` iff its key is not the (non-empty)
path `p`. -/
def keepB (p : Option String) (k : String) : Bool :=
  match p with
  | some path => path.isEmpty || (k != path)
  | none => true

/-- Round-trip property of one configuration: after a fully successful
upload of `orig` (decoding to `audio`), retrieving each of the three
variants through the stored locators returns exactly the blob the
ingestion wrote. -/
def roundtripOk (cfg : Config) (orig audio : List Nat) : Prop :=
  let r := upload "a.mp3" orig (some audio) "T" 1 cfg ⟨[], [], []⟩ 0 okAll
  (get_file_stream_response r.trackOf "original" cfg r.worldOf).body =
    some (Blob.raw orig) ∧
  (get_file_stream_response r.trackOf "mp3" cfg r.worldOf).body =
    some (Blob.mp3 audio cfg.transcode_bitrate) ∧
  (get_file_stream_response r.trackOf "preview" cfg r.worldOf).body =
    some (Blob.mp3 (previewSegment audio cfg.preview_duration)
      cfg.transcode_bitrate)

/-- A concrete successful postgres-mode ingestion, used to instantiate
theorems about successful runs. -/
def c5run : IngestResult :=
  process_track_upload {} "a.mp3" [1] (some [2, 3]) cfgPg ⟨[], [], []⟩ 0 okAll

/-- The claim's phrasing of "the substring after the last '.'": strip
the trailing run of non-dot characters off the reverse. -/
def lastExtSpec (cs : List Char) : List Char :=
  (cs.reverse.takeWhile (fun c => c != '.')).reverse

theorem takeWhile_append_of_any {α : Type} (p : α → Bool) (l m : List α)
    (h : l.any (fun x => !p x) = true) :
    (l ++ m).takeWhile p = l.takeWhile p := by
  induction l with
  | nil => simp at h
  | cons a t ih =>
    by_cases hp : p a
    · simp only [List.cons_append, List.takeWhile_cons, hp]
      have h' : t.any (fun x => !p x) = true := by
        simp only [List.any_cons, hp] at h
        simpa using h
      rw [ih h']
    · simp only [List.cons_append, List.takeWhile_cons]
      simp [hp]

theorem takeWhile_append_of_all {α : Type} (p : α → Bool) (l m : List α)
    (h : ∀ x ∈ l, p x = true) :
    (l ++ m).takeWhile p = l ++ m.takeWhile p := by
  induction l with
  | nil => simp
  | cons a t ih =>
    have ha : p a = true := h a (List.mem_cons_self a t)
    simp only [List.cons_append, List.takeWhile_cons, ha, if_true]
    rw [ih (fun x hx => h x (List.mem_cons_of_mem a hx))]

theorem afterLastDot_eq (cs : List Char) :
    afterLastDot cs = if '.' ∈ cs then some (lastExtSpec cs) else none := by
  induction cs with
  | nil => simp [afterLastDot]
  | cons c rest ih =>
    by_cases hd : '.' ∈ rest
    · have hmem : '.' ∈ c :: rest := List.mem_cons_of_mem c hd
      have hspec : lastExtSpec (c :: rest) = lastExtSpec rest := by
        unfold lastExtSpec
        rw [List.reverse_cons]
        rw [takeWhile_append_of_any (fun c => c != '.') rest.reverse [c]]
        rw [List.any_eq_true]
        exact ⟨'.', List.mem_reverse.mpr hd, by simp⟩
      simp only [afterLastDot, ih, hd, if_true, hmem, hspec]
    · by_cases hc : c = '.'
      · subst hc
        have hmem : '.' ∈ '.' :: rest := List.mem_cons_self _ _
        have hall : ∀ x ∈ rest.reverse, (fun c => c != '.') x = true := by
          intro x hx
          have : x ∈ rest := List.mem_reverse.mp hx
          have : x ≠ '.' := fun he => hd (he ▸ this)
          simpa using this
        have hspec : lastExtSpec ('.' :: rest) = rest := by
          unfold lastExtSpec
          rw [List.reverse_cons]
          rw [takeWhile_append_of_all (fun c => c != '.') rest.reverse ['.'] hall]
          simp
        simp only [afterLastDot, ih, hd, if_false, hmem, if_true, hspec]
      · have hmem : '.' ∉ c :: rest := by
          intro h
          rcases List.mem_cons.mp h with h | h
          · exact hc h.symm
          · exact hd h
        simp only [afterLastDot, ih, hd, if_false, hmem]
        simp [hc]

/-- C10: `allowed_file(filename, allowed)` returns true iff the
filename contains a '.' and the substring after the last '.',
lower-cased, is a member of the allow-list; a filename with no dot is
rejected even when the whole name equals an allowed extension, and
matching is case-insensitive. -/
theorem c10_allowed_file_characterization :
    (∀ (f : String) (allowed : List String),
      allowed_file f allowed = true ↔
        ('.' ∈ f.toList ∧ String.mk (pyLower (lastExtSpec f.toList)) ∈ allowed))
    ∧ allowed_file "mp3" ["mp3"] = false
    ∧ allowed_file "song.MP3" ["mp3"] = true := by
  refine ⟨fun f allowed => ?_, by decide, by decide⟩
  unfold allowed_file
  rw [afterLastDot_eq]
  by_cases h : '.' ∈ f.data
  · simp [h, List.elem_iff]
  · simp [h]

/-- C6: when the filename's extension is not in the configured
allow-list, the upload route rejects before any work: the world (its
stores and its event trace, hence reads and backend calls) is returned
untouched and no track is created. -/
theorem c6_unsupported_format_rejected_before_work :
    ∀ (filename : String) (orig_bytes : List Nat) (decoded : Option (List Nat))
      (title : String) (owner : Nat) (cfg : Config) (w : World) (uuid : Nat)
      (ok : Nat → Bool),
      allowed_file filename cfg.allowed_extensions = false →
      upload filename orig_bytes decoded title owner cfg w uuid ok =
        UploadResult.rejected w := by
  intro filename orig decoded title owner cfg w uuid ok h
  unfold upload
  simp [h]

/-- Witness for C6: an upload named "virus.exe" against the default
allow-list is rejected with the world untouched. -/
theorem c6_witness :
    allowed_file "virus.exe" ({} : Config).allowed_extensions = false ∧
    upload "virus.exe" [1, 2] (some [3]) "T" 1 {} ⟨[], [], []⟩ 0 okAll =
      UploadResult.rejected ⟨[], [], []⟩ :=
  ⟨by decide,
   c6_unsupported_format_rejected_before_work "virus.exe" [1, 2] (some [3])
     "T" 1 {} ⟨[], [], []⟩ 0 okAll (by decide)⟩

/-- C1 (code bug, evaluated at the failing input): local mode, the
original write succeeds and the stream write fails.  The upload
route's cleanup runs, yet the original blob written during the failed
ingestion is still present in the backend afterwards, because the
source assigns the locator columns only after all three writes, so
`storage_delete` finds every path column NULL and removes nothing. -/
theorem c1_orphaned_blob_after_failed_ingestion :
    (upload "a.mp3" [1, 2] (some [7, 8]) "T" 1 {} ⟨[], [], []⟩ 0
        (fun i => i == 0)).isFailed = true ∧
    fsGet (upload "a.mp3" [1, 2] (some [7, 8]) "T" 1 {} ⟨[], [], []⟩ 0
        (fun i => i == 0)).worldOf.fs "uploads/1/u0_orig.mp3" =
      some (Blob.raw [1, 2]) ∧
    (upload "a.mp3" [1, 2] (some [7, 8]) "T" 1 {} ⟨[], [], []⟩ 0
        (fun i => i == 0)).trackOf.file_path = none := by
  decide

/-- Counterexample to C3 as stated: a local-mode track whose stream
locator is NULL but whose original locator is set does NOT fail with
NotFound — the stream variant falls back to the original locator and
serves those bytes. -/
theorem c3_counterexample :
    get_file_stream_response { file_path := some "f.bin" } "mp3" {}
        ⟨[("f.bin", Blob.raw [3, 4])], [], []⟩ =
      StreamResp.file (Blob.raw [3, 4]) "audio/mpeg" (some "f.bin") ∧
    get_file_stream_response { file_path := some "f.bin" } "mp3" {}
        ⟨[("f.bin", Blob.raw [3, 4])], [], []⟩ ≠ StreamResp.notFound := by
  decide

/-- Counterexample to C4 as stated: in postgres mode, a track whose
preview locator is NULL but whose stream locator is set returns the
ORIGINAL blob's bytes, not the stream variant's bytes. -/
theorem c4_counterexample :
    get_file_stream_response
        { preview_file := none, mp3_file := some (Blob.mp3 [1] "192k"),
          original_file := some (Blob.raw [9, 9]),
          mime_type := some "audio/wav", original_filename := some "o.wav",
          title := "T" } "preview" { storage_mode := "postgres" }
        ⟨[], [], []⟩ =
      StreamResp.file (Blob.raw [9, 9]) "audio/wav" (some "o.wav") ∧
    Blob.raw [9, 9] ≠ Blob.mp3 [1] "192k" := by
  decide

/-- C3 amended: for every track and backend, resolving the stream
variant when the stream locator is absent does not fail outright —
it behaves exactly like resolving the original variant: it falls back
to the original locator (postgres blob, `s3_key`, or `file_path`) and
fails only when that fallback also fails. -/
theorem c3_amended_stream_falls_back_to_original :
    ∀ (t : Track) (cfg : Config) (w : World),
      streamLocAbsent t cfg = true →
      get_file_stream_response t "mp3" cfg w =
        get_file_stream_response t "original" cfg w := by
  intro t cfg w h
  unfold streamLocAbsent at h
  unfold get_file_stream_response
  by_cases hp : (cfg.storage_mode == "postgres") = true
  · simp only [hp, if_true] at h ⊢
    have hm : optBlobTruthy t.mp3_file = false := by simpa using h
    simp [hm]
  · have hp' : (cfg.storage_mode == "postgres") = false := by
      simpa using hp
    by_cases hs : (cfg.storage_mode == "s3") = true
    · simp only [hp', hs, if_false, if_true, Bool.false_eq_true] at h ⊢
      have hm : strTruthy t.s3_mp3_key = false := by simpa using h
      simp [pyOrStr, hm]
    · have hs' : (cfg.storage_mode == "s3") = false := by simpa using hs
      simp only [hp', hs', if_false, Bool.false_eq_true] at h ⊢
      have hm : strTruthy t.mp3_path = false := by simpa using h
      simp [pyOrStr, hm]

/-- Witness for the amended C3: a postgres-mode track with no stream
blob resolves the stream variant exactly as the original variant. -/
theorem c3_amended_witness :
    get_file_stream_response
        { mp3_file := none, original_file := some (Blob.raw [5]) } "mp3"
        cfgPg ⟨[], [], []⟩ =
      get_file_stream_response
        { mp3_file := none, original_file := some (Blob.raw [5]) } "original"
        cfgPg ⟨[], [], []⟩ :=
  c3_amended_stream_falls_back_to_original _ _ _ (by decide)

/-- C4 amended: the preview variant falls back to the stream locator on
the local and s3 backends (when its own locator is unset and the
stream's is set, resolution equals the stream variant's); on the
postgres backend a missing preview blob falls back to the original
blob instead, behaving exactly like the original variant. -/
theorem c4_amended_preview_fallback :
    ∀ (t : Track) (cfg : Config) (w : World),
      (cfg.storage_mode ≠ "postgres" → cfg.storage_mode ≠ "s3" →
        strTruthy t.preview_path = false → strTruthy t.mp3_path = true →
        get_file_stream_response t "preview" cfg w =
          get_file_stream_response t "mp3" cfg w)
      ∧ (cfg.storage_mode = "s3" →
          strTruthy t.s3_preview_key = false → strTruthy t.s3_mp3_key = true →
          get_file_stream_response t "preview" cfg w =
            get_file_stream_response t "mp3" cfg w)
      ∧ (cfg.storage_mode = "postgres" →
          optBlobTruthy t.preview_file = false →
          get_file_stream_response t "preview" cfg w =
            get_file_stream_response t "original" cfg w) := by
  intro t cfg w
  refine ⟨fun h1 h2 hpv hmp => ?_, fun hs hpv hmp => ?_, fun hp hpv => ?_⟩
  · have e1 : (cfg.storage_mode == "postgres") = false := by simpa using h1
    have e2 : (cfg.storage_mode == "s3") = false := by simpa using h2
    unfold get_file_stream_response
    simp [e1, e2, pyOrStr, hpv, hmp]
  · unfold get_file_stream_response
    simp [hs, pyOrStr, hpv, hmp]
  · unfold get_file_stream_response
    simp [hp, hpv]

/-- Witness for the amended C4: a local-mode track with no preview path
but a stream path resolves the preview variant exactly as the stream
variant. -/
theorem c4_amended_witness :
    get_file_stream_response { mp3_path := some "m.bin" } "preview" {}
        ⟨[("m.bin", Blob.mp3 [2] "192k")], [], []⟩ =
      get_file_stream_response { mp3_path := some "m.bin" } "mp3" {}
        ⟨[("m.bin", Blob.mp3 [2] "192k")], [], []⟩ :=
  (c4_amended_preview_fallback _ _ _).1 (by decide) (by decide) (by decide)
    (by decide)

/-- C5: on every successful ingestion, the stored preview blob is the
MP3 export of exactly the leading `PREVIEW_DURATION * 1000`
milliseconds of the decoded audio; that segment's duration is
`min(preview length, total duration)`, and a track shorter than the
configured preview length becomes the preview whole, with no error. -/
theorem c5_preview_is_leading_min :
    ∀ (t0 : Track) (filename : String) (orig audio : List Nat) (cfg : Config)
      (w : World) (uuid : Nat) (ok : Nat → Bool) (t : Track) (w2 : World),
      process_track_upload t0 filename orig (some audio) cfg w uuid ok =
        IngestResult.ok t w2 →
      storedPreview t cfg w2 =
        some (Blob.mp3 (previewSegment audio cfg.preview_duration)
          cfg.transcode_bitrate) ∧
      (previewSegment audio cfg.preview_duration).length =
        min (cfg.preview_duration * 1000) audio.length ∧
      (audio.length ≤ cfg.preview_duration * 1000 →
        previewSegment audio cfg.preview_duration = audio) := by
  intro t0 filename orig audio cfg w uuid ok t w2 h
  refine ⟨?_, List.length_take _ _, fun hle => List.take_of_length_le hle⟩
  simp only [process_track_upload] at h
  split at h
  case isTrue hp =>
    cases h
    simp [storedPreview, hp]
  case isFalse hp =>
    have hp' : (cfg.storage_mode == "postgres") = false := by simpa using hp
    split at h
    case isTrue hs =>
      split at h
      case isTrue => cases h
      case isFalse =>
        split at h
        case isTrue => cases h
        case isFalse =>
          split at h
          case isTrue => cases h
          case isFalse =>
            cases h
            simp [storedPreview, hp', hs, World.s3PutObj, World.logRead,
              s3Get, beq_self_eq_true]
    case isFalse hs =>
      have hs' : (cfg.storage_mode == "s3") = false := by simpa using hs
      split at h
      case isTrue => cases h
      case isFalse =>
        split at h
        case isTrue => cases h
        case isFalse =>
          split at h
          case isTrue => cases h
          case isFalse =>
            cases h
            simp [storedPreview, hp', hs', World.fsPut, World.logRead,
              fsGet, beq_self_eq_true]

/-- Witness for C5: the concrete postgres-mode ingestion `c5run`
succeeds and its stored preview is the leading-min segment. -/
theorem c5_witness :
    storedPreview c5run.okTrack cfgPg c5run.okWorld =
      some (Blob.mp3 (previewSegment [2, 3] cfgPg.preview_duration)
        cfgPg.transcode_bitrate) ∧
    (previewSegment [2, 3] cfgPg.preview_duration).length =
      min (cfgPg.preview_duration * 1000) ([2, 3] : List Nat).length ∧
    (([2, 3] : List Nat).length ≤ cfgPg.preview_duration * 1000 →
      previewSegment [2, 3] cfgPg.preview_duration = [2, 3]) :=
  c5_preview_is_leading_min {} "a.mp3" [1] [2, 3] cfgPg ⟨[], [], []⟩ 0 okAll
    c5run.okTrack c5run.okWorld rfl

theorem removeIfExists_eq_filter (fs : List (String × Blob))
    (p : Option String) :
    removeIfExists fs p = fs.filter (fun kv => keepB p kv.1) := by
  cases p with
  | none => simp [removeIfExists, keepB]
  | some path =>
    by_cases h : path.isEmpty
    · simp [removeIfExists, keepB, h]
    · simp [removeIfExists, keepB, h, fsDel]

theorem s3Del_foldl_eq_filter (keys : List String)
    (s : List (String × Blob × String)) :
    keys.foldl (fun s k => s3Del s k) s =
      s.filter (fun kv => keys.all (fun k => kv.1 != k)) := by
  induction keys generalizing s with
  | nil => simp
  | cons k ks ih =>
    rw [List.foldl_cons, ih]
    simp only [s3Del, List.filter_filter, List.all_cons]
    apply List.filter_congr
    intro kv _
    generalize (kv.1 != k) = a
    generalize (ks.all fun x => kv.1 != x) = b
    revert a b
    decide

/-- C7: `storage_delete` is total and idempotent — a second call on the
result of a first changes nothing; on a track whose locators were
never written (all NULL) it is a complete no-op; and in the upload
route the error reported after cleanup is exactly the original
ingestion error, never one of the cleanup's own. -/
theorem c7_storage_delete_safe :
    ∀ (t : Track) (cfg : Config) (w : World),
      (storage_delete (storage_delete t cfg w).1 cfg
          (storage_delete t cfg w).2 = storage_delete t cfg w)
      ∧ (t.file_path = none → t.mp3_path = none → t.preview_path = none →
          t.s3_key = none → t.s3_mp3_key = none → t.s3_preview_key = none →
          t.original_file = none → t.mp3_file = none → t.preview_file = none →
          storage_delete t cfg w = (t, w))
      ∧ (∀ (filename : String) (orig : List Nat)
          (decoded : Option (List Nat)) (title : String) (owner uuid : Nat)
          (ok : Nat → Bool),
          allowed_file filename cfg.allowed_extensions = true →
          (upload filename orig decoded title owner cfg w uuid ok).errMsg =
            (process_track_upload (initTrack owner title) filename orig
              decoded cfg w uuid ok).errOf) := by
  intro t cfg w
  refine ⟨?_, ?_, ?_⟩
  · unfold storage_delete
    by_cases hl : (cfg.storage_mode == "local") = true
    · simp only [hl, if_true]
      simp only [removeIfExists_eq_filter, List.filter_filter]
      congr 2
      apply List.filter_congr
      intro kv _
      generalize keepB t.file_path kv.1 = a
      generalize keepB t.mp3_path kv.1 = b
      generalize keepB t.preview_path kv.1 = c
      revert a b c
      decide
    · have hl' : (cfg.storage_mode == "local") = false := by simpa using hl
      by_cases hs : (cfg.storage_mode == "s3") = true
      · simp only [hl', hs, if_true, if_false, Bool.false_eq_true]
        simp only [s3Del_foldl_eq_filter, List.filter_filter]
        congr 2
        apply List.filter_congr
        intro kv _
        generalize (([t.s3_key, t.s3_mp3_key, t.s3_preview_key].filterMap
          id).filter (fun k => !k.isEmpty)).all (fun k => kv.1 != k) = a
        revert a
        decide
      · have hs' : (cfg.storage_mode == "s3") = false := by simpa using hs
        simp [hl', hs']
  · intro h1 h2 h3 h4 h5 h6 h7 h8 h9
    unfold storage_delete
    by_cases hl : (cfg.storage_mode == "local") = true
    · simp [hl, h1, h2, h3, removeIfExists]
    · have hl' : (cfg.storage_mode == "local") = false := by simpa using hl
      by_cases hs : (cfg.storage_mode == "s3") = true
      · simp [hl', hs, h4, h5, h6]
      · have hs' : (cfg.storage_mode == "s3") = false := by simpa using hs
        cases t
        simp_all
  · intro filename orig decoded title owner uuid ok h
    unfold upload
    simp only [h, Bool.not_true, Bool.false_eq_true, if_false]
    cases hp : process_track_upload (initTrack owner title) filename orig
        decoded cfg w uuid ok with
    | ok t2 w2 => simp [UploadResult.errMsg, IngestResult.errOf]
    | err t2 w2 e => simp [UploadResult.errMsg, IngestResult.errOf]

/-- Witness for C7: the no-op conjunct on a fresh all-NULL track and the
error-preservation conjunct on an upload whose decode fails. -/
theorem c7_witness :
    storage_delete {} {} ⟨[], [], []⟩ = ({}, ⟨[], [], []⟩) ∧
    (upload "b.wav" [1] none "T" 2 {} ⟨[], [], []⟩ 0 okAll).errMsg =
      (process_track_upload (initTrack 2 "T") "b.wav" [1] none {}
        ⟨[], [], []⟩ 0 okAll).errOf :=
  ⟨(c7_storage_delete_safe {} {} ⟨[], [], []⟩).2.1 rfl rfl rfl rfl rfl rfl
      rfl rfl rfl,
   (c7_storage_delete_safe {} {} ⟨[], [], []⟩).2.2 "b.wav" [1] none "T" 2 0
      okAll (by decide)⟩

/-- C8: for every (non-empty, hence decodable) uploaded byte string and
every decoded audio, and for each of the three backends, the blobs the
ingestion writes are fetched back byte-identical through retrieval via
the stored locators, for all three variants. -/
theorem c8_put_get_roundtrip :
    ∀ (orig audio : List Nat), orig.isEmpty = false →
      roundtripOk {} orig audio ∧ roundtripOk cfgPg orig audio ∧
        roundtripOk cfgS3 orig audio := by
  intro orig audio h
  have hb : optBlobTruthy ((upload "a.mp3" orig (some audio) "T" 1 cfgPg
      ⟨[], [], []⟩ 0 okAll).trackOf.original_file) = true := by
    show optBlobTruthy (some (Blob.raw orig)) = true
    simp [optBlobTruthy, Blob.truthy, h]
  have ho : (upload "a.mp3" orig (some audio) "T" 1 cfgPg
      ⟨[], [], []⟩ 0 okAll).trackOf.original_file = some (Blob.raw orig) := rfl
  have key : ∀ (t : Track) (w : World), optBlobTruthy t.original_file = true →
      (get_file_stream_response t "original" cfgPg w).body = t.original_file := by
    intro t w htr
    simp only [get_file_stream_response, cfgPg]
    simp only [StreamResp.body, htr]
    simp only [show (("postgres" : String) == "postgres") = true from rfl,
      show (("original" : String) == "mp3") = false from rfl,
      show (("original" : String) == "preview") = false from rfl,
      Bool.false_and, Bool.false_eq_true, if_false, if_true]
    cases hof : t.original_file with
    | none => rw [hof] at htr; simp [optBlobTruthy] at htr
    | some b => simp
  refine ⟨⟨?_, ?_, ?_⟩, ⟨?_, ?_, ?_⟩, ⟨?_, ?_, ?_⟩⟩
  · with_unfolding_all rfl
  · with_unfolding_all rfl
  · with_unfolding_all rfl
  · rw [key _ _ hb]
    exact ho
  · with_unfolding_all rfl
  · with_unfolding_all rfl
  · with_unfolding_all rfl
  · with_unfolding_all rfl
  · with_unfolding_all rfl

/-- Witness for C8: the round-trip at the concrete non-empty upload
bytes [1] decoding to audio [2], on all three backends. -/
theorem c8_witness :
    roundtripOk {} [1] [2] ∧ roundtripOk cfgPg [1] [2] ∧
      roundtripOk cfgS3 [1] [2] :=
  c8_put_get_roundtrip [1] [2] rfl

/-- C9: for any storage-mode string outside local/s3/postgres, the
ingestion takes the local-filesystem branch (three files written, path
locators set), while `storage_delete` takes the postgres branch; the
cleanup therefore removes none of the files the ingestion wrote (it
returns the track and world unchanged). -/
theorem c9_unknown_mode_files_not_cleaned :
    ∀ (cfg : Config) (filename title : String) (orig audio : List Nat)
      (owner uuid : Nat) (w : World),
      cfg.storage_mode ≠ "local" → cfg.storage_mode ≠ "s3" →
      cfg.storage_mode ≠ "postgres" →
      (process_track_upload (initTrack owner title) filename orig (some audio)
          cfg w uuid okAll).isOk = true ∧
      (process_track_upload (initTrack owner title) filename orig (some audio)
          cfg w uuid okAll).okTrack.file_path.isSome = true ∧
      (process_track_upload (initTrack owner title) filename orig (some audio)
          cfg w uuid okAll).okTrack.mp3_path.isSome = true ∧
      (process_track_upload (initTrack owner title) filename orig (some audio)
          cfg w uuid okAll).okTrack.preview_path.isSome = true ∧
      (process_track_upload (initTrack owner title) filename orig (some audio)
          cfg w uuid okAll).okWorld.fs.length = w.fs.length + 3 ∧
      storage_delete
          (process_track_upload (initTrack owner title) filename orig
            (some audio) cfg w uuid okAll).okTrack cfg
          (process_track_upload (initTrack owner title) filename orig
            (some audio) cfg w uuid okAll).okWorld =
        ((process_track_upload (initTrack owner title) filename orig
            (some audio) cfg w uuid okAll).okTrack,
         (process_track_upload (initTrack owner title) filename orig
            (some audio) cfg w uuid okAll).okWorld) := by
  intro cfg filename title orig audio owner uuid w h1 h2 h3
  have hl : (cfg.storage_mode == "local") = false := by simpa using h1
  have hs : (cfg.storage_mode == "s3") = false := by simpa using h2
  have hp : (cfg.storage_mode == "postgres") = false := by simpa using h3
  refine ⟨?_, ?_, ?_, ?_, ?_, ?_⟩ <;>
    simp [process_track_upload, storage_delete, hp, hs, hl, okAll,
      World.fsPut, World.logRead, IngestResult.okWorld, IngestResult.okTrack,
      IngestResult.isOk, initTrack]

/-- Witness for C9: the misspelled mode "locl" stores to the local
filesystem yet `storage_delete` cleans nothing. -/
theorem c9_witness :
    (process_track_upload (initTrack 1 "T") "a.mp3" [1] (some [2])
        { storage_mode := "locl" } ⟨[], [], []⟩ 0 okAll).isOk = true ∧
    (process_track_upload (initTrack 1 "T") "a.mp3" [1] (some [2])
        { storage_mode := "locl" } ⟨[], [], []⟩ 0 okAll).okTrack.file_path.isSome = true ∧
    (process_track_upload (initTrack 1 "T") "a.mp3" [1] (some [2])
        { storage_mode := "locl" } ⟨[], [], []⟩ 0 okAll).okTrack.mp3_path.isSome = true ∧
    (process_track_upload (initTrack 1 "T") "a.mp3" [1] (some [2])
        { storage_mode := "locl" } ⟨[], [], []⟩ 0 okAll).okTrack.preview_path.isSome = true ∧
    (process_track_upload (initTrack 1 "T") "a.mp3" [1] (some [2])
        { storage_mode := "locl" } ⟨[], [], []⟩ 0 okAll).okWorld.fs.length =
      (⟨[], [], []⟩ : World).fs.length + 3 ∧
    storage_delete
        (process_track_upload (initTrack 1 "T") "a.mp3" [1] (some [2])
          { storage_mode := "locl" } ⟨[], [], []⟩ 0 okAll).okTrack
        { storage_mode := "locl" }
        (process_track_upload (initTrack 1 "T") "a.mp3" [1] (some [2])
          { storage_mode := "locl" } ⟨[], [], []⟩ 0 okAll).okWorld =
      ((process_track_upload (initTrack 1 "T") "a.mp3" [1] (some [2])
          { storage_mode := "locl" } ⟨[], [], []⟩ 0 okAll).okTrack,
       (process_track_upload (initTrack 1 "T") "a.mp3" [1] (some [2])
          { storage_mode := "locl" } ⟨[], [], []⟩ 0 okAll).okWorld) :=
  c9_unknown_mode_files_not_cleaned { storage_mode := "locl" } "a.mp3" "T"
    [1] [2] 1 0 ⟨[], [], []⟩ (by decide) (by decide) (by decide)

theorem process_initTrack_consistent :
    ∀ (owner : Nat) (title filename : String) (orig : List Nat)
      (decoded : Option (List Nat)) (cfg : Config) (w : World) (uuid : Nat)
      (ok : Nat → Bool),
      locatorsConsistent (process_track_upload (initTrack owner title)
        filename orig decoded cfg w uuid ok).okTrack = true := by
  intro owner title filename orig decoded cfg w uuid ok
  cases decoded with
  | none => simp [process_track_upload, IngestResult.okTrack,
      locatorsConsistent, allSame3, initTrack]
  | some audio =>
    simp only [process_track_upload]
    repeat' split
    all_goals simp [IngestResult.okTrack, locatorsConsistent, allSame3,
      initTrack]

theorem locOk_storage_delete (t : Track) (cfg : Config) (w : World)
    (h : locatorsConsistent t = true) :
    locatorsConsistent (storage_delete t cfg w).1 = true := by
  by_cases hl : (cfg.storage_mode == "local") = true
  · simpa [storage_delete, hl] using h
  · have hl' : (cfg.storage_mode == "local") = false := by simpa using hl
    by_cases hs : (cfg.storage_mode == "s3") = true
    · simpa [storage_delete, hl', hs] using h
    · have hs' : (cfg.storage_mode == "s3") = false := by simpa using hs
      simp only [storage_delete, hl', hs', if_false, Bool.false_eq_true]
      simp only [locatorsConsistent, allSame3, Bool.and_eq_true, beq_iff_eq]
        at h ⊢
      simp [h.1.1, h.2.1, h.2.2]

/-- C2: after any upload-route call returns, the track it carries (none
for a rejected upload) has every backend locator-column set either
all-NULL or all-non-NULL — never a mixed state, on success or on
failure, for every backend mode, decode outcome and write-fault
pattern. -/
theorem c2_locators_all_or_nothing :
    ∀ (filename : String) (orig : List Nat) (decoded : Option (List Nat))
      (title : String) (owner : Nat) (cfg : Config) (w : World) (uuid : Nat)
      (ok : Nat → Bool),
      (upload filename orig decoded title owner cfg w uuid ok).locOk = true := by
  intro filename orig decoded title owner cfg w uuid ok
  by_cases ha : allowed_file filename cfg.allowed_extensions = true
  case neg =>
    have ha' : allowed_file filename cfg.allowed_extensions = false := by
      simpa using ha
    simp [upload, ha', UploadResult.locOk, UploadResult.resTrack]
  case pos =>
    simp only [upload, ha, Bool.not_true, Bool.false_eq_true, if_false]
    cases hp : process_track_upload (initTrack owner title) filename orig
        decoded cfg w uuid ok with
    | ok t2 w2 =>
      simp only [UploadResult.locOk, UploadResult.resTrack]
      have hc := process_initTrack_consistent owner title filename orig
        decoded cfg w uuid ok
      rw [hp] at hc
      simpa [IngestResult.okTrack] using hc
    | err t2 w2 e =>
      simp only [UploadResult.locOk, UploadResult.resTrack]
      apply locOk_storage_delete
      have hc := process_initTrack_consistent owner title filename orig
        decoded cfg w uuid ok
      rw [hp] at hc
      simpa [IngestResult.okTrack] using hc

end MusicStream
